import Mathlib

/-
Verification development for the apex backend decision pipeline
(services/executor.py, services/composer.py, services/llm_decider.py and
models/decision.py).  The Python code is shallowly embedded: pydantic
models become structures, polars lazy-frame programs become an explicit
plan (built first, with all build-time validation errors, then run over
the materialized rows), and every fallible operation returns Except.
-/

namespace Apex

/-- Enumeration of chart types (models/decision.py, ChartType). -/
inductive ChartType where
  | bar | column | line | area | scatter | histogram | boxplot
  | stacked_bar | diverging_stacked_bar | pie | heatmap | hexbin
  | geo_choropleth
  deriving DecidableEq, Repr

/-- String value of a ChartType member (Python StrEnum value). -/
def chartTypeValue : ChartType → String
  | .bar => "bar"
  | .column => "column"
  | .line => "line"
  | .area => "area"
  | .scatter => "scatter"
  | .histogram => "histogram"
  | .boxplot => "boxplot"
  | .stacked_bar => "stacked_bar"
  | .diverging_stacked_bar => "diverging_stacked_bar"
  | .pie => "pie"
  | .heatmap => "heatmap"
  | .hexbin => "hexbin"
  | .geo_choropleth => "geo_choropleth"

/-- Enumeration of semantic column types (models/decision.py, SemanticType). -/
inductive SemanticType where
  | nominal | ordinal | quantitative | temporal | geospatial
  deriving DecidableEq, Repr

/-- String value of a SemanticType member. -/
def semanticTypeValue : SemanticType → String
  | .nominal => "nominal"
  | .ordinal => "ordinal"
  | .quantitative => "quantitative"
  | .temporal => "temporal"
  | .geospatial => "geospatial"

/-- Enumeration of field roles (models/decision.py, FieldRole). -/
inductive FieldRole where
  | dimension | measure | time | series | geo | value | x | y
  deriving DecidableEq, Repr

/-- Enumeration of aggregate operations (models/decision.py, AggregateOp). -/
inductive AggregateOp where
  | sum | mean | median | min | max | count | auto
  deriving DecidableEq, Repr

/-- String value of an AggregateOp member. -/
def aggregateOpValue : AggregateOp → String
  | .sum => "sum"
  | .mean => "mean"
  | .median => "median"
  | .min => "min"
  | .max => "max"
  | .count => "count"
  | .auto => "auto"

/-- Enumeration of time units (models/decision.py, TimeUnit). -/
inductive TimeUnit where
  | auto | second | minute | hour | day | week | month | quarter | year
  deriving DecidableEq, Repr

/-- String value of a TimeUnit member. -/
def timeUnitValue : TimeUnit → String
  | .auto => "auto"
  | .second => "second"
  | .minute => "minute"
  | .hour => "hour"
  | .day => "day"
  | .week => "week"
  | .month => "month"
  | .quarter => "quarter"
  | .year => "year"

/-- Enumeration of filter operations (models/decision.py, FilterOp). -/
inductive FilterOp where
  | is_null | is_not_null | eq | ne | gt | gte | lt | lte
  | in_ | not_in | between | regex
  deriving DecidableEq, Repr

/-- String value of a FilterOp member. -/
def filterOpValue : FilterOp → String
  | .is_null => "is_null"
  | .is_not_null => "is_not_null"
  | .eq => "eq"
  | .ne => "ne"
  | .gt => "gt"
  | .gte => "gte"
  | .lt => "lt"
  | .lte => "lte"
  | .in_ => "in"
  | .not_in => "not_in"
  | .between => "between"
  | .regex => "regex"

/-- Calendar datetime value used to model polars temporal columns. -/
structure DateTime where
  year : Int
  month : Nat
  day : Nat
  hour : Nat
  minute : Nat
  second : Nat
  deriving DecidableEq, Repr

/-- Days since 1970-01-01 of a civil date (standard civil-calendar algorithm);
models the day arithmetic inside polars. -/
def daysFromCivil (y : Int) (m : Nat) (day : Nat) : Int :=
  let yy : Int := if m ≤ 2 then y - 1 else y
  let era : Int := Int.ediv (if 0 ≤ yy then yy else yy - 399) 400
  let yoe : Int := yy - era * 400
  let mp : Int := Int.emod ((m : Int) + 9) 12
  let doy : Int := Int.ediv (153 * mp + 2) 5 + (day : Int) - 1
  let doe : Int := yoe * 365 + Int.ediv yoe 4 - Int.ediv yoe 100 + doy
  era * 146097 + doe - 719468

/-- Civil date (year, month, day) of a count of days since 1970-01-01. -/
def civilFromDays (z0 : Int) : Int × Nat × Nat :=
  let z := z0 + 719468
  let era := Int.ediv (if 0 ≤ z then z else z - 146096) 146097
  let doe := z - era * 146097
  let yoe := Int.ediv (doe - Int.ediv doe 1460 + Int.ediv doe 36524 - Int.ediv doe 146096) 365
  let y := yoe + era * 400
  let doy := doe - (365 * yoe + Int.ediv yoe 4 - Int.ediv yoe 100)
  let mp := Int.ediv (5 * doy + 2) 153
  let dday := doy - Int.ediv (153 * mp + 2) 5 + 1
  let m := if mp < 10 then mp + 3 else mp - 9
  (if m ≤ 2 then y + 1 else y, m.toNat, dday.toNat)

/-- Epoch-second key of a datetime, used for temporal comparisons. -/
def dtKey (d : DateTime) : Int :=
  ((daysFromCivil d.year d.month d.day * 24 + (d.hour : Int)) * 60
      + (d.minute : Int)) * 60 + (d.second : Int)

/-- Models polars dt.truncate for the duration strings the executor produces
("1s", "1m", "1h", "1d", "1w", "1mo", "3mo", "1y"); weekly windows start on
Monday as in polars.  Any other duration string leaves the value unchanged. -/
def dtTruncate (dur : String) (d : DateTime) : DateTime :=
  if dur = "1s" then d
  else if dur = "1m" then { d with second := 0 }
  else if dur = "1h" then { d with minute := 0, second := 0 }
  else if dur = "1d" then { d with hour := 0, minute := 0, second := 0 }
  else if dur = "1w" then
    let days := daysFromCivil d.year d.month d.day
    let monday := days - Int.emod (days - 4) 7
    let c := civilFromDays monday
    { year := c.1, month := c.2.1, day := c.2.2, hour := 0, minute := 0, second := 0 }
  else if dur = "1mo" then { d with day := 1, hour := 0, minute := 0, second := 0 }
  else if dur = "3mo" then
    { d with month := 3 * ((d.month - 1) / 3) + 1, day := 1,
             hour := 0, minute := 0, second := 0 }
  else if dur = "1y" then
    { d with month := 1, day := 1, hour := 0, minute := 0, second := 0 }
  else d

/-- Cell value of a dataframe column: null, numeric, string or datetime. -/
inductive Value where
  | null
  | num (q : ℚ)
  | str (s : String)
  | dt (d : DateTime)
  deriving DecidableEq, Repr

/-- Errors raised by the executor: InvalidRequestError raised by the
service itself, plus the polars-level errors surfaced when a lazy query
is collected (missing column, compute error). -/
inductive Err where
  | invalidRequest (msg : String)
  | columnNotFound (c : String)
  | compute (msg : String)
  deriving DecidableEq, Repr

/-- Bin strategy parameters (models/decision.py, BinParam); validation
guarantees maxbins ≥ 1 and step > 0 when present. -/
structure BinParam where
  strategy : Option String := none
  maxbins : Option Nat := none
  step : Option ℚ := none
  deriving DecidableEq, Repr

/-- Bin clause (models/decision.py, BinSpec). -/
structure BinSpec where
  field : String
  params : Option BinParam := none
  deriving DecidableEq, Repr

/-- Time-unit clause (models/decision.py, TimeUnitSpec). -/
structure TimeUnitSpec where
  field : String
  unit : TimeUnit
  deriving DecidableEq, Repr

/-- Derive clause (models/decision.py, DeriveSpec). -/
structure DeriveSpec where
  as_ : String
  expr : String
  deriving DecidableEq, Repr

/-- One aggregation measure (models/decision.py, AggregateMeasure). -/
structure AggregateMeasure where
  field : String
  op : AggregateOp
  as_ : Option String := none
  deriving DecidableEq, Repr

/-- Aggregate clause (models/decision.py, AggregateSpec). -/
structure AggregateSpec where
  groupby : List String
  measures : List AggregateMeasure
  deriving DecidableEq, Repr

/-- Filter clause (models/decision.py, FilterSpec); the same shape is used
for request-level filters (models/filters.py, FilterSpecRequest). -/
structure FilterSpec where
  field : String
  op : FilterOp
  value : Option Value := none
  values : Option (List Value) := none
  deriving DecidableEq, Repr

/-- Composite transform of optional clause lists (models/decision.py,
Transform, assembled by multiple inheritance in the source). -/
structure Transform where
  aggregate : Option (List AggregateSpec) := none
  bin : Option (List BinSpec) := none
  time_unit : Option (List TimeUnitSpec) := none
  derive : Option (List DeriveSpec) := none
  filter : Option (List FilterSpec) := none
  deriving DecidableEq, Repr

/-- Bin parameter of an encoding channel: either a boolean or structured
parameters (models/decision.py, Channel.bin). -/
inductive BinChoice where
  | boolean (b : Bool)
  | param (p : BinParam)
  deriving DecidableEq, Repr

/-- Encoding channel (models/decision.py, Channel). -/
structure Channel where
  field : Option String := none
  aggregate : Option AggregateOp := none
  time_unit : Option TimeUnit := none
  bin : Option BinChoice := none
  type : Option SemanticType := none
  deriving DecidableEq, Repr

/-- Facet channel (models/decision.py, FacetChannel). -/
structure FacetChannel where
  field : Option String := none
  type : Option String := none
  max_columns : Option Nat := none
  deriving DecidableEq, Repr

/-- Order channel (models/decision.py, OrderChannel); the source's field
named by is rendered by_ because the former is reserved in Lean. -/
structure OrderChannel where
  by_ : Option String := none
  direction : Option String := none
  deriving DecidableEq, Repr

/-- Per-channel encoding of a decision (models/decision.py, Encoding). -/
structure Encoding where
  x : Option Channel := none
  y : Option Channel := none
  color : Option Channel := none
  size : Option Channel := none
  shape : Option Channel := none
  row : Option FacetChannel := none
  column : Option FacetChannel := none
  order : Option OrderChannel := none
  deriving DecidableEq, Repr

/-- Chart alternate (models/decision.py, ChartAlternate). -/
structure ChartAlternate where
  type : ChartType
  score : ℚ
  why : Option String := none
  deriving DecidableEq, Repr

/-- Chart selection (models/decision.py, Chart); validation keeps score in
the unit interval and forbids an empty alternates list. -/
structure Chart where
  type : ChartType
  score : ℚ
  alternates : Option (List ChartAlternate) := none
  deriving DecidableEq, Repr

/-- Field specification (models/decision.py, FieldSpec). -/
structure FieldSpec where
  name : String
  role : FieldRole
  type : SemanticType
  aggregate : Option AggregateOp := none
  time_unit : Option TimeUnit := none
  binned : Option Bool := none
  description : Option String := none
  deriving DecidableEq, Repr

/-- Visualization decision (models/decision.py, VisualizationDecision).
The purely descriptive metadata fields (data_checks, render_hints, profile,
warnings, errors) are not read by the executor, composer or fallback logic
under verification and are not modelled. -/
structure VisualizationDecision where
  chart : Chart
  fields : List FieldSpec
  transform : Option Transform := none
  encoding : Encoding
  assumptions : Option (List String) := none
  justification : String
  deriving DecidableEq, Repr

/-- Row of a materialized dataframe: association list from column name to
cell value (column order is significant, as in polars). -/
abbrev Row := List (String × Value)

/-- Materialized dataframe: list of rows. -/
abbrev DataFrame := List Row

/-- Value of a column in a row, if the column exists. -/
def getCol (r : Row) (c : String) : Option Value :=
  (r.find? (fun p => p.fst == c)).map Prod.snd

/-- Value of a column, or the polars column-not-found error. -/
def requireCol (r : Row) (c : String) : Except Err Value :=
  match getCol r c with
  | some v => .ok v
  | none => .error (.columnNotFound c)

/-- Replace a column's value in place, or append the column at the end
(polars with_columns semantics). -/
def setCol (r : Row) (c : String) (v : Value) : Row :=
  if r.any (fun p => p.fst == c) then
    r.map (fun p => if p.fst == c then (c, v) else p)
  else r ++ [(c, v)]

/-- Polars-style three-valued less-or-equal test: comparisons with null are
null (the row is dropped, modelled as false); incompatible types raise a
compute error. -/
def testLe (a b : Value) : Except Err Bool :=
  match a, b with
  | .null, _ => .ok false
  | _, .null => .ok false
  | .num x, .num y => .ok (decide (x ≤ y))
  | .str x, .str y => .ok (decide (x ≤ y))
  | .dt x, .dt y => .ok (decide (dtKey x ≤ dtKey y))
  | _, _ => .error (.compute "incompatible comparison")

/-- Polars-style strict less-than test; null propagates to a drop. -/
def testLt (a b : Value) : Except Err Bool :=
  match a, b with
  | .null, _ => .ok false
  | _, .null => .ok false
  | .num x, .num y => .ok (decide (x < y))
  | .str x, .str y => .ok (decide (x < y))
  | .dt x, .dt y => .ok (decide (dtKey x < dtKey y))
  | _, _ => .error (.compute "incompatible comparison")

/-- Polars-style equality test; null propagates to a drop. -/
def testEqV (a b : Value) : Except Err Bool :=
  match a, b with
  | .null, _ => .ok false
  | _, .null => .ok false
  | .num x, .num y => .ok (decide (x = y))
  | .str x, .str y => .ok (decide (x = y))
  | .dt x, .dt y => .ok (decide (x = y))
  | _, _ => .error (.compute "incompatible comparison")

/-- Polars-style inequality test; null propagates to a drop. -/
def testNeV (a b : Value) : Except Err Bool :=
  match a, b with
  | .null, _ => .ok false
  | _, .null => .ok false
  | .num x, .num y => .ok (decide (x ≠ y))
  | .str x, .str y => .ok (decide (x ≠ y))
  | .dt x, .dt y => .ok (decide (x ≠ y))
  | _, _ => .error (.compute "incompatible comparison")

/-- Predicate of one filter clause on one cell value, following
TransformExecutor._apply_filters (services/executor.py).  Comparison
filters compare the column against the scalar value (absent scalar means
null, so nothing matches); in and not_in test membership in values
(absent means the empty list, as the source's `spec.values or []`);
between reads its two bounds from values in the order given.  A between
clause without exactly two values and the regex operation raise
InvalidRequestError; execute raises them while the query is being built. -/
def filterTest (f : FilterSpec) (v : Value) : Except Err Bool :=
  match f.op with
  | .is_null => .ok (decide (v = .null))
  | .is_not_null => .ok (decide (v ≠ .null))
  | .eq => testEqV v (f.value.getD .null)
  | .ne => testNeV v (f.value.getD .null)
  | .gt => testLt (f.value.getD .null) v
  | .gte => testLe (f.value.getD .null) v
  | .lt => testLt v (f.value.getD .null)
  | .lte => testLe v (f.value.getD .null)
  | .in_ => .ok (decide (v ≠ .null ∧ v ∈ f.values.getD []))
  | .not_in => .ok (decide (v ≠ .null ∧ v ∉ f.values.getD []))
  | .between =>
      match f.values with
      | some (lo :: hi :: _) => do
          let b1 ← testLe lo v
          let b2 ← testLe v hi
          .ok (b1 && b2)
      | _ => .error (.invalidRequest "between filter expects two values")
  | .regex => .error (.invalidRequest ("Unsupported filter operation: "
      ++ filterOpValue .regex))

/-- Keep the rows satisfying a fallible predicate, propagating the first
error in row order. -/
def filterRowsM (df : DataFrame) (p : Row → Except Err Bool) :
    Except Err DataFrame :=
  match df with
  | [] => .ok []
  | r :: rs => do
      let keep ← p r
      let rest ← filterRowsM rs p
      pure (if keep then r :: rest else rest)

/-- Evaluate one filter clause over the dataframe. -/
def evalFilter (df : DataFrame) (f : FilterSpec) : Except Err DataFrame :=
  filterRowsM df (fun r => do filterTest f (← requireCol r f.field))

/-- One operation of the built lazy query.  TransformExecutor builds a
polars lazy query first (raising InvalidRequestError for malformed
clauses while building) and only then collects it; PlanOp is one step of
that built query. -/
inductive PlanOp where
  | filterStep (f : FilterSpec)
  | timeUnitStep (field aliasName dur : String)
  | binStep (field : String) (step : ℚ)
  | binCut (field : String) (binCount : Option Nat)
  | aggregateStep (a : AggregateSpec)
  | limitStep (n : Nat)
  deriving DecidableEq, Repr

/-- Build-time validation of one filter clause, following
TransformExecutor._apply_filters: a between clause must carry exactly two
values, and the regex operation (present in the FilterOp enum) falls to
the unsupported-operation branch; every other operation is accepted. -/
def checkFilter (f : FilterSpec) : Except Err PlanOp :=
  match f.op with
  | .between =>
      match f.values with
      | none => .error (.invalidRequest "between filter expects two values")
      | some vs =>
          if vs.length = 2 then .ok (.filterStep f)
          else .error (.invalidRequest "between filter expects two values")
  | .regex => .error (.invalidRequest ("Unsupported filter operation: "
      ++ filterOpValue .regex))
  | _ => .ok (.filterStep f)

/-- Build the filter portion of the lazy query, clause by clause in list
order (TransformExecutor._apply_filters). -/
def buildFilterOps : List FilterSpec → Except Err (List PlanOp)
  | [] => .ok []
  | f :: fs => do
      let op ← checkFilter f
      let rest ← buildFilterOps fs
      pure (op :: rest)

/-- Duration string for a time unit, with "1d" as the fallback for any
unit missing from the mapping (TransformExecutor._time_unit_to_pl_duration:
mapping.get(unit, "1d"); auto is not in the mapping). -/
def timeUnitToPlDuration (unit : TimeUnit) : String :=
  match unit with
  | .second => "1s"
  | .minute => "1m"
  | .hour => "1h"
  | .day => "1d"
  | .week => "1w"
  | .month => "1mo"
  | .quarter => "3mo"
  | .year => "1y"
  | _ => "1d"

/-- Output column alias of a time-unit clause: the bare field name for
auto, otherwise field:unit (TransformExecutor._apply_transforms). -/
def timeUnitAlias (s : TimeUnitSpec) : String :=
  if s.unit = TimeUnit.auto then s.field
  else s.field ++ ":" ++ timeUnitValue s.unit

/-- Build the time-unit portion of the lazy query; building never fails. -/
def buildTimeUnitOps (l : List TimeUnitSpec) : List PlanOp :=
  l.map (fun s => .timeUnitStep s.field (timeUnitAlias s)
    (timeUnitToPlDuration s.unit))

/-- Build one bin operation (TransformExecutor._apply_bin): a present,
truthy step selects floor(value/step)*step binning; otherwise the cut
primitive receives params.maxbins when params is present (even when
maxbins itself is absent) and the literal 10 only when params is absent. -/
def buildBinOp (spec : BinSpec) : PlanOp :=
  match spec.params with
  | some p =>
      match p.step with
      | some st => if st = 0 then .binCut spec.field p.maxbins
                   else .binStep spec.field st
      | none => .binCut spec.field p.maxbins
  | none => .binCut spec.field (some 10)

/-- Build the bin portion of the lazy query; building never fails. -/
def buildBinOps (l : List BinSpec) : List PlanOp :=
  l.map buildBinOp

/-- Build-time validation of the measures of one aggregate clause
(TransformExecutor._aggregate_expression): an operation outside the
supported map (sum, mean, median, min, max, count) raises
InvalidRequestError naming the operation; auto is such an operation. -/
def checkMeasures : List AggregateMeasure → Except Err Unit
  | [] => .ok ()
  | m :: ms =>
      match m.op with
      | .auto => .error (.invalidRequest ("Unsupported aggregate operation: "
          ++ aggregateOpValue .auto))
      | _ => checkMeasures ms

/-- Build the aggregate portion of the lazy query, clause by clause. -/
def buildAggOps : List AggregateSpec → Except Err (List PlanOp)
  | [] => .ok []
  | a :: as_ => do
      checkMeasures a.measures
      let rest ← buildAggOps as_
      pure (.aggregateStep a :: rest)

/-- Build the transform portion of the lazy query, following
TransformExecutor._apply_transforms clause order exactly: the transform's
filter clauses, then time-unit bucketing, then the unconditional rejection
of any derive clause, then binning, then aggregation.  An absent transform
contributes nothing. -/
def buildTransformOps (t : Option Transform) : Except Err (List PlanOp) :=
  match t with
  | none => .ok []
  | some tr => do
      let fOps ← buildFilterOps (tr.filter.getD [])
      let tuOps := buildTimeUnitOps (tr.time_unit.getD [])
      match tr.derive.getD [] with
      | _ :: _ => .error (.invalidRequest "derive transform not implemented in v1")
      | [] => do
          let binOps := buildBinOps (tr.bin.getD [])
          let aggOps ← buildAggOps (tr.aggregate.getD [])
          pure (fOps ++ tuOps ++ binOps ++ aggOps)

/-- Map a fallible row transformation over the dataframe, propagating the
first error in row order. -/
def mapRowsM (df : DataFrame) (g : Row → Except Err Row) :
    Except Err DataFrame :=
  match df with
  | [] => .ok []
  | r :: rs => do
      let r2 ← g r
      let rest ← mapRowsM rs g
      pure (r2 :: rest)

/-- Cast of a cell to the polars Datetime type: datetimes and nulls pass
through; any other value makes the collect fail (strict cast). -/
def castDatetime : Value → Except Err Value
  | .dt d => .ok (.dt d)
  | .null => .ok .null
  | _ => .error (.compute "cannot cast value to datetime")

/-- Evaluate one time-unit step: cast the source column to datetime,
truncate to the duration, and write the result under the alias. -/
def evalTimeUnit (df : DataFrame) (field aliasName dur : String) :
    Except Err DataFrame :=
  mapRowsM df (fun r => do
    let v ← requireCol r field
    let c ← castDatetime v
    let t : Value := match c with
      | .dt d => .dt (dtTruncate dur d)
      | other => other
    pure (setCol r aliasName t))

/-- Evaluate one step-based bin step: replace each numeric value by
floor(value/step)*step, keeping nulls null. -/
def evalBinStep (df : DataFrame) (field : String) (step : ℚ) :
    Except Err DataFrame :=
  mapRowsM df (fun r => do
    let v ← requireCol r field
    let b ← match v with
      | .null => Except.ok Value.null
      | .num q => Except.ok (Value.num ((⌊q / step⌋ : ℚ) * step))
      | _ => Except.error (Err.compute "cannot bin non-numeric value")
    pure (setCol r field b))

/-- Models the count-based equal-width binning primitive the executor
invokes for the no-step case: the observed numeric range is split into
binCount equal buckets and each value is replaced by its bucket's lower
edge.  The primitive needs a concrete bucket count; the executor forwards
the decision's maxbins (which may be absent) or the literal 10 when no
params were given, and an absent count cannot produce buckets. -/
def evalBinCut (df : DataFrame) (field : String) (binCount : Option Nat) :
    Except Err DataFrame :=
  match binCount with
  | none => .error (.compute "equal-width binning requires a bucket count")
  | some n => do
      let cells ← df.mapM (fun r => do
        let v ← requireCol r field
        match v with
        | .num q => Except.ok (some q)
        | .null => Except.ok (none : Option ℚ)
        | _ => Except.error (Err.compute "cannot bin non-numeric value"))
      let present := cells.filterMap id
      match present with
      | [] => .ok df
      | q :: qs =>
          let mn := qs.foldl min q
          let mx := qs.foldl max q
          let width := (mx - mn) / (n : ℚ)
          mapRowsM df (fun r => do
            let v ← requireCol r field
            let b : Value := match v with
              | .num q2 =>
                  if width = 0 ∨ n = 0 then .num mn
                  else
                    let idx := Nat.min (n - 1) (Int.toNat ⌊(q2 - mn) / width⌋)
                    .num (mn + (idx : ℚ) * width)
              | other => other
            pure (setCol r field b))

/-- Skip nulls and collect the numeric values of a column; a non-numeric
value makes the aggregation fail. -/
def numsOf : List Value → Except Err (List ℚ)
  | [] => .ok []
  | .null :: vs => numsOf vs
  | .num q :: vs => do pure (q :: (← numsOf vs))
  | _ :: _ => .error (.compute "aggregation requires numeric values")

/-- One aggregate measure over the values of a group: the polars
semantics of sum, mean, median, min, max (null-skipping; an empty group
yields null except for sum, which yields 0) and count of non-null
values. -/
def applyAggOp (op : AggregateOp) (vals : List Value) : Except Err Value :=
  match op with
  | .count => .ok (.num ((vals.filter (fun v => decide (v ≠ .null))).length : ℚ))
  | .sum => do pure (.num ((← numsOf vals).sum))
  | .mean => do
      let ns ← numsOf vals
      pure (if ns.length = 0 then Value.null else .num (ns.sum / (ns.length : ℚ)))
  | .min => do
      let ns ← numsOf vals
      match ns with
      | [] => pure Value.null
      | q :: qs => pure (.num (qs.foldl min q))
  | .max => do
      let ns ← numsOf vals
      match ns with
      | [] => pure Value.null
      | q :: qs => pure (.num (qs.foldl max q))
  | .median => do
      let ns ← numsOf vals
      let sorted := ns.mergeSort (fun a b => decide (a ≤ b))
      match sorted with
      | [] => pure Value.null
      | _ :: _ =>
          let k := sorted.length
          if k % 2 = 1 then pure (.num (sorted.getD (k / 2) 0))
          else pure (.num ((sorted.getD (k / 2 - 1) 0 + sorted.getD (k / 2) 0) / 2))
  | .auto => .error (.invalidRequest ("Unsupported aggregate operation: "
      ++ aggregateOpValue .auto))

/-- Output alias of an aggregate measure: the truthy as value, otherwise
field_op (TransformExecutor._aggregate_expression: measure.as_ or
field_op). -/
def measureAlias (m : AggregateMeasure) : String :=
  match m.as_ with
  | some s => if s = "" then m.field ++ "_" ++ aggregateOpValue m.op else s
  | none => m.field ++ "_" ++ aggregateOpValue m.op

/-- Deduplicate keeping first occurrences, used to give the grouped
output a deterministic order (polars group_by order is unspecified; the
model fixes first-occurrence order, which no claim depends on). -/
def firstOccAux (seen : List (List Value)) :
    List (List Value) → List (List Value)
  | [] => []
  | k :: ks =>
      if k ∈ seen then firstOccAux seen ks
      else k :: firstOccAux (k :: seen) ks

/-- Evaluate one aggregate step (TransformExecutor._apply_aggregate):
group by the listed columns and compute every measure per group; the
output rows carry the group columns then the measure aliases. -/
def evalAggregate (df : DataFrame) (a : AggregateSpec) :
    Except Err DataFrame := do
  let keyed ← df.mapM (fun r => do
    let key ← a.groupby.mapM (fun c => requireCol r c)
    pure (key, r))
  let keys := firstOccAux [] (keyed.map Prod.fst)
  keys.mapM (fun k => do
    let grp := (keyed.filter (fun p => decide (p.fst = k))).map Prod.snd
    let ms ← a.measures.mapM (fun m => do
      let vals ← grp.mapM (fun r => requireCol r m.field)
      let v ← applyAggOp m.op vals
      pure (measureAlias m, v))
    pure (a.groupby.zip k ++ ms))

/-- Run one step of the built query over the materialized rows. -/
def runOp (df : DataFrame) : PlanOp → Except Err DataFrame
  | .filterStep f => evalFilter df f
  | .timeUnitStep field aliasName dur => evalTimeUnit df field aliasName dur
  | .binStep field st => evalBinStep df field st
  | .binCut field n => evalBinCut df field n
  | .aggregateStep a => evalAggregate df a
  | .limitStep n => .ok (df.take n)

/-- Run the built query in order (the collect of the lazy frame). -/
def runPlan (df : DataFrame) : List PlanOp → Except Err DataFrame
  | [] => .ok df
  | op :: ops => do runPlan (← runOp df op) ops

/-- Execution metadata returned with the rows. -/
structure ExecMeta where
  rows_after_filter : Nat
  applied_filters : Nat
  deriving DecidableEq, Repr

/-- Truncation steps contributed by a truthy limit_rows argument
(the source's `if limit_rows:` skips a None or zero limit). -/
def limitOpsOf (limitRows : Option Nat) : List PlanOp :=
  match limitRows with
  | some n => if n = 0 then [] else [PlanOp.limitStep n]
  | none => []

/-- TransformExecutor.execute over an already-loaded dataframe: build the
query from the request-level filters, then the decision's transform, then
a truthy limit_rows truncation; collect it; and return the rows with
execution metadata (rows_after_filter is the final height, applied_filters
counts the request-level filters only). -/
def execute (df : DataFrame) (decision : VisualizationDecision)
    (filters : Option (List FilterSpec)) (limitRows : Option Nat) :
    Except Err (DataFrame × ExecMeta) := do
  let reqOps ← buildFilterOps (filters.getD [])
  let trOps ← buildTransformOps decision.transform
  let out ← runPlan df (reqOps ++ trOps ++ limitOpsOf limitRows)
  pure (out, ⟨out.length, (filters.getD []).length⟩)

/-- Mark of a composed Vega-Lite specification: either a bare mark name or
a bar mark with a stack mode (Composer._map_mark returns a string or a
two-key dict). -/
inductive MarkSpec where
  | plain (name : String)
  | barStack (ty : String) (stack : String)
  deriving DecidableEq, Repr

/-- Composer._map_mark: stacked_bar and diverging_stacked_bar map to bar
marks with normal and normalize stacking; every other chart-type string
passes through as its literal name (mapping.get default). -/
def mapMark (markType : String) : MarkSpec :=
  if markType = "stacked_bar" then .barStack "bar" "normal"
  else if markType = "diverging_stacked_bar" then .barStack "bar" "normalize"
  else .plain markType

/-- Flattened bin entry of an emitted channel: the literal true or the
structured parameters restricted to their non-null fields (the dict with
exclude_none is exactly a record of optional fields). -/
inductive BinOut where
  | asTrue
  | flat (strategy : Option String) (maxbins : Option Nat) (step : Option ℚ)
  deriving DecidableEq, Repr

/-- Emitted channel object: each sub-key is present or absent
(Composer._encode_channel builds a dict with exactly these keys). -/
structure ChannelOut where
  field : Option String := none
  type : Option String := none
  aggregate : Option String := none
  timeUnit : Option String := none
  bin : Option BinOut := none
  deriving DecidableEq, Repr

/-- Composer._encode_channel: emit each sub-key only when its source is
truthy — an absent field, type, aggregate or time_unit is omitted, as is
an empty-string field (Python truthiness) and a boolean bin that is
false; a true boolean bin passes through and a structured bin is
flattened to its non-null fields. -/
def encodeChannel (ch : Channel) : ChannelOut :=
  { field := match ch.field with
      | some s => if s = "" then none else some s
      | none => none
    type := ch.type.map semanticTypeValue
    aggregate := ch.aggregate.map aggregateOpValue
    timeUnit := ch.time_unit.map timeUnitValue
    bin := match ch.bin with
      | none => none
      | some (.boolean b) => if b then some .asTrue else none
      | some (.param p) => some (.flat p.strategy p.maxbins p.step) }

/-- Emitted encoding object: a key for each of the five positional and
retinal channels, present exactly when the decision carries the channel
(Composer._build_encoding; row, column and order are not mapped). -/
structure EncodingOut where
  x : Option ChannelOut := none
  y : Option ChannelOut := none
  color : Option ChannelOut := none
  size : Option ChannelOut := none
  shape : Option ChannelOut := none
  deriving DecidableEq, Repr

/-- Composer._build_encoding: each channel key is emitted exactly when the
decision's encoding carries it (pydantic model instances are always
truthy). -/
def buildEncoding (decision : VisualizationDecision) : EncodingOut :=
  { x := decision.encoding.x.map encodeChannel
    y := decision.encoding.y.map encodeChannel
    color := decision.encoding.color.map encodeChannel
    size := decision.encoding.size.map encodeChannel
    shape := decision.encoding.shape.map encodeChannel }

/-- Composed Vega-Lite specification (the dict Composer.compose returns). -/
structure VegaLiteSpec where
  schemaUrl : String
  dataValues : List Row
  mark : MarkSpec
  encoding : EncodingOut
  configAxisLabelAngle : Int
  deriving DecidableEq, Repr

/-- Composer.compose: a total function of the (already validated) decision
and rows — it performs no validation and has no failure path. -/
def compose (decision : VisualizationDecision) (data : List Row) :
    VegaLiteSpec :=
  { schemaUrl := "https://vega.github.io/schema/vega-lite/v5.json"
    dataValues := data
    mark := mapMark (chartTypeValue decision.chart.type)
    encoding := buildEncoding decision
    configAxisLabelAngle := 0 }

/-- Raw column signal handed to the fallback synthesizer: the name and
optional type entry of one dict in the payload's columns list. -/
structure FallbackColumn where
  name : String
  type : Option String := none
  deriving DecidableEq, Repr

/-- ASCII lower-casing of a string, modelling the Python str.lower call
character by character. -/
def pyLower (s : String) : String :=
  ⟨s.data.map Char.toLower⟩

/-- Columns whose type entry (absent treated as the empty string, then
lower-cased) equals the requested type name
(LLMDecider._fallback_decision, cols_of_type). -/
def colsOfType (columns : List FallbackColumn) (colType : String) :
    List FallbackColumn :=
  columns.filter (fun col => pyLower (col.type.getD "") == colType)

/-- First assumptions entry of every synthesized fallback decision. -/
def fallbackHeuristicMsg : String :=
  "Heuristic fallback applied because model decision failed"

/-- Fallback line decision over the first temporal and first quantitative
columns (LLMDecider._fallback_decision, first branch). -/
def lineFallback (tField qField : String) : VisualizationDecision :=
  { chart := { type := .line, score := 3 / 10 }
    fields := [
      { name := tField, role := .time, type := .temporal },
      { name := qField, role := .measure, type := .quantitative,
        aggregate := some .sum }]
    encoding := {
      x := some { field := some tField, type := some .temporal }
      y := some { field := some qField, aggregate := some .sum,
                  type := some .quantitative } }
    justification :=
      "LLM unavailable; fallback line chart showing quantitative trend over time." }

/-- Fallback bar decision over the first nominal and first quantitative
columns (second branch). -/
def barFallback (nField qField : String) : VisualizationDecision :=
  { chart := { type := .bar, score := 3 / 10 }
    fields := [
      { name := nField, role := .dimension, type := .nominal },
      { name := qField, role := .measure, type := .quantitative,
        aggregate := some .sum }]
    encoding := {
      x := some { field := some nField, type := some .nominal }
      y := some { field := some qField, aggregate := some .sum,
                  type := some .quantitative } }
    justification :=
      "LLM unavailable; fallback bar chart comparing quantitative values across categories." }

/-- Fallback scatter decision over the first two quantitative columns
(third branch). -/
def scatterFallback (xField yField : String) : VisualizationDecision :=
  { chart := { type := .scatter, score := 3 / 10 }
    fields := [
      { name := xField, role := .measure, type := .quantitative },
      { name := yField, role := .measure, type := .quantitative }]
    encoding := {
      x := some { field := some xField, type := some .quantitative }
      y := some { field := some yField, type := some .quantitative } }
    justification :=
      "LLM unavailable; fallback scatter plot to observe relationship between two measures." }

/-- Fallback histogram decision over the only quantitative column
(fourth branch): binned x, count-aggregated y. -/
def histogramFallback (qField : String) : VisualizationDecision :=
  { chart := { type := .histogram, score := 3 / 10 }
    fields := [
      { name := qField, role := .measure, type := .quantitative }]
    encoding := {
      x := some { field := some qField, type := some .quantitative,
                  bin := some (.boolean true) }
      y := some { field := some qField, type := some .quantitative,
                  aggregate := some .count } }
    justification :=
      "LLM unavailable; fallback histogram to show distribution of the measure." }

/-- Final decoration of every synthesized fallback decision: the fixed
assumptions pair naming the heuristic and the literal failure reason. -/
def withReason (d : VisualizationDecision) (reason : String) :
    VisualizationDecision :=
  { d with assumptions := some [fallbackHeuristicMsg, "Reason: " ++ reason] }

/-- LLMDecider._fallback_decision: a pure function of the column type
signals and the failure reason.  Rules are first-match-wins over the
case-insensitively typed column lists: temporal and quantitative present
gives a line chart; else nominal and quantitative gives a bar chart; else
two or more quantitative gives a scatter; else exactly one quantitative
gives a histogram; else None.  Every produced decision gets the fixed
assumptions pair naming the reason. -/
def fallbackDecision (columns : List FallbackColumn) (reason : String) :
    Option VisualizationDecision :=
  let quantitative := colsOfType columns "quantitative"
  let temporal := colsOfType columns "temporal"
  let nominal := colsOfType columns "nominal"
  let payload : Option VisualizationDecision :=
    match temporal, quantitative with
    | t0 :: _, q0 :: _ => some (lineFallback t0.name q0.name)
    | _, _ =>
      match nominal, quantitative with
      | n0 :: _, q0 :: _ => some (barFallback n0.name q0.name)
      | _, _ =>
        match quantitative with
        | x0 :: y0 :: _ => some (scatterFallback x0.name y0.name)
        | [q0] => some (histogramFallback q0.name)
        | [] => none
  match payload with
  | none => none
  | some d => some (withReason d reason)

/-- Reference evaluation of a list of filter clauses in list order,
used to state the fixed clause-order property. -/
def runFilterList : DataFrame → List FilterSpec → Except Err DataFrame
  | df, [] => .ok df
  | df, f :: fs =>
      match evalFilter df f with
      | .ok d => runFilterList d fs
      | .error e => .error e

/-- One whole time-unit clause: truncate the field under the executor's
alias and duration. -/
def applyTimeUnitClause (df : DataFrame) (s : TimeUnitSpec) :
    Except Err DataFrame :=
  evalTimeUnit df s.field (timeUnitAlias s) (timeUnitToPlDuration s.unit)

/-- Reference evaluation of a list of time-unit clauses in list order. -/
def runTimeUnitList : DataFrame → List TimeUnitSpec → Except Err DataFrame
  | df, [] => .ok df
  | df, s :: ss =>
      match applyTimeUnitClause df s with
      | .ok d => runTimeUnitList d ss
      | .error e => .error e

/-- One whole bin clause, as the executor builds and runs it. -/
def applyBinClause (df : DataFrame) (b : BinSpec) : Except Err DataFrame :=
  runOp df (buildBinOp b)

/-- Reference evaluation of a list of bin clauses in list order. -/
def runBinList : DataFrame → List BinSpec → Except Err DataFrame
  | df, [] => .ok df
  | df, b :: bs =>
      match applyBinClause df b with
      | .ok d => runBinList d bs
      | .error e => .error e

/-- Reference evaluation of a list of aggregate clauses in list order. -/
def runAggList : DataFrame → List AggregateSpec → Except Err DataFrame
  | df, [] => .ok df
  | df, a :: as_ =>
      match evalAggregate df a with
      | .ok d => runAggList d as_
      | .error e => .error e

/-- Truthy limit_rows truncation applied to materialized rows. -/
def applyLimitRows (limitRows : Option Nat) (df : DataFrame) : DataFrame :=
  match limitRows with
  | some n => if n = 0 then df else df.take n
  | none => df

/-- The fixed clause order the specification prescribes: request-level
filters, then the transform's filter clauses, then time-unit bucketing,
then binning, then aggregation, and limit_rows truncation last. -/
def specFixedOrder (df : DataFrame) (reqFilters tf : List FilterSpec)
    (tus : List TimeUnitSpec) (bins : List BinSpec)
    (aggs : List AggregateSpec) (limitRows : Option Nat) :
    Except Err DataFrame :=
  match runFilterList df reqFilters with
  | .error e => .error e
  | .ok d1 =>
    match runFilterList d1 tf with
    | .error e => .error e
    | .ok d2 =>
      match runTimeUnitList d2 tus with
      | .error e => .error e
      | .ok d3 =>
        match runBinList d3 bins with
        | .error e => .error e
        | .ok d4 =>
          match runAggList d4 aggs with
          | .error e => .error e
          | .ok d5 => .ok (applyLimitRows limitRows d5)

theorem bindOk {α β : Type} (x : α) (f : α → Except Err β) :
    (Except.ok x >>= f) = f x := rfl

theorem bindError {α β : Type} (e : Err) (f : α → Except Err β) :
    ((Except.error e : Except Err α) >>= f) = .error e := rfl

theorem runPlan_append (a : List PlanOp) (df : DataFrame) (b : List PlanOp) :
    runPlan df (a ++ b) =
      match runPlan df a with
      | .ok d => runPlan d b
      | .error e => .error e := by
  induction a generalizing df with
  | nil => simp [runPlan]
  | cons op ops ih =>
      simp only [List.cons_append, runPlan]
      cases h : runOp df op with
      | ok d => simp [h, bindOk, ih]
      | error e => simp [h, bindError]

theorem checkFilter_ok_eq (f : FilterSpec) (op : PlanOp)
    (h : checkFilter f = .ok op) : op = .filterStep f := by
  unfold checkFilter at h
  split at h
  · split at h
    · cases h
    · split at h
      · cases h; rfl
      · cases h
  · cases h
  · cases h; rfl

theorem checkFilter_error_invalid (f : FilterSpec) (e : Err)
    (h : checkFilter f = .error e) : ∃ m, e = .invalidRequest m := by
  unfold checkFilter at h
  split at h
  · split at h
    · cases h; exact ⟨_, rfl⟩
    · split at h
      · cases h
      · cases h; exact ⟨_, rfl⟩
  · cases h; exact ⟨_, rfl⟩
  · cases h

theorem buildFilterOps_ok_eq (l : List FilterSpec) (ops : List PlanOp)
    (h : buildFilterOps l = .ok ops) : ops = l.map PlanOp.filterStep := by
  induction l generalizing ops with
  | nil =>
      simp [buildFilterOps] at h
      simp [h.symm]
  | cons f fs ih =>
      cases hc : checkFilter f with
      | error e => simp [buildFilterOps, hc, bindError] at h
      | ok op =>
          cases hr : buildFilterOps fs with
          | error e => simp [buildFilterOps, hc, hr, bindOk, bindError] at h
          | ok rest =>
              simp [buildFilterOps, hc, hr, bindOk] at h
              simp [h.symm, checkFilter_ok_eq f op hc, ih rest hr]

theorem buildFilterOps_error_invalid (l : List FilterSpec) :
    ∀ e : Err, buildFilterOps l = .error e → ∃ m, e = .invalidRequest m := by
  induction l with
  | nil => intro e h; simp [buildFilterOps] at h
  | cons f fs ih =>
      intro e h
      cases hc : checkFilter f with
      | error e1 =>
          simp [buildFilterOps, hc, bindError] at h
          exact h ▸ checkFilter_error_invalid f e1 hc
      | ok op =>
          cases hr : buildFilterOps fs with
          | error e2 =>
              simp [buildFilterOps, hc, hr, bindOk, bindError] at h
              exact h ▸ ih e2 hr
          | ok rest => simp [buildFilterOps, hc, hr, bindOk] at h

theorem checkMeasures_error_invalid (l : List AggregateMeasure) (e : Err)
    (h : checkMeasures l = .error e) : ∃ m, e = .invalidRequest m := by
  induction l with
  | nil => simp [checkMeasures] at h
  | cons m ms ih =>
      cases hop : m.op <;> simp [checkMeasures, hop] at h
      case auto => exact ⟨_, h.symm⟩
      all_goals exact ih h

theorem buildAggOps_ok_eq (l : List AggregateSpec) (ops : List PlanOp)
    (h : buildAggOps l = .ok ops) : ops = l.map PlanOp.aggregateStep := by
  induction l generalizing ops with
  | nil =>
      simp [buildAggOps] at h
      simp [h.symm]
  | cons a as_ ih =>
      cases hc : checkMeasures a.measures with
      | error e => simp [buildAggOps, hc, bindError] at h
      | ok u =>
          cases hr : buildAggOps as_ with
          | error e => simp [buildAggOps, hc, hr, bindOk, bindError] at h
          | ok rest =>
              simp [buildAggOps, hc, hr, bindOk] at h
              simp [h.symm, ih rest hr]

theorem buildAggOps_error_invalid (l : List AggregateSpec) :
    ∀ e : Err, buildAggOps l = .error e → ∃ m, e = .invalidRequest m := by
  induction l with
  | nil => intro e h; simp [buildAggOps] at h
  | cons a as_ ih =>
      intro e h
      cases hc : checkMeasures a.measures with
      | error e1 =>
          simp [buildAggOps, hc, bindError] at h
          exact h ▸ checkMeasures_error_invalid a.measures e1 hc
      | ok u =>
          cases hr : buildAggOps as_ with
          | error e2 =>
              simp [buildAggOps, hc, hr, bindOk, bindError] at h
              exact h ▸ ih e2 hr
          | ok rest => simp [buildAggOps, hc, hr, bindOk] at h

theorem runPlan_filterSteps (l : List FilterSpec) (df : DataFrame) :
    runPlan df (l.map PlanOp.filterStep) = runFilterList df l := by
  induction l generalizing df with
  | nil => rfl
  | cons f fs ih =>
      simp only [List.map_cons, runPlan, runOp, runFilterList]
      cases h : evalFilter df f with
      | ok d => simp [h, bindOk, ih]
      | error e => simp [h, bindError]

theorem runPlan_timeUnitSteps (l : List TimeUnitSpec) (df : DataFrame) :
    runPlan df (buildTimeUnitOps l) = runTimeUnitList df l := by
  induction l generalizing df with
  | nil => rfl
  | cons s ss ih =>
      simp only [buildTimeUnitOps, List.map_cons, runPlan, runOp,
        runTimeUnitList]
      cases h : applyTimeUnitClause df s with
      | ok d =>
          simp only [applyTimeUnitClause] at h
          simp [h, bindOk, ← ih, buildTimeUnitOps]
      | error e =>
          simp only [applyTimeUnitClause] at h
          simp [h, bindError]

theorem runPlan_binSteps (l : List BinSpec) (df : DataFrame) :
    runPlan df (buildBinOps l) = runBinList df l := by
  induction l generalizing df with
  | nil => rfl
  | cons b bs ih =>
      simp only [buildBinOps, List.map_cons, runPlan, runBinList]
      cases h : applyBinClause df b with
      | ok d =>
          simp only [applyBinClause] at h
          simp [h, bindOk, ← ih, buildBinOps]
      | error e =>
          simp only [applyBinClause] at h
          simp [h, bindError]

theorem runPlan_aggSteps (l : List AggregateSpec) (df : DataFrame) :
    runPlan df (l.map PlanOp.aggregateStep) = runAggList df l := by
  induction l generalizing df with
  | nil => rfl
  | cons a as_ ih =>
      simp only [List.map_cons, runPlan, runOp, runAggList]
      cases h : evalAggregate df a with
      | ok d => simp [h, bindOk, ih]
      | error e => simp [h, bindError]

theorem runPlan_limitOps (limitRows : Option Nat) (df : DataFrame) :
    runPlan df (limitOpsOf limitRows) = .ok (applyLimitRows limitRows df) := by
  cases limitRows with
  | none => rfl
  | some n =>
      by_cases h : n = 0
      · simp [limitOpsOf, applyLimitRows, h, runPlan]
      · simp [limitOpsOf, applyLimitRows, h, runPlan, runOp, bindOk]

theorem buildFilterOps_mem_error (l : List FilterSpec) (spec : FilterSpec)
    (e : Err) (hmem : spec ∈ l) (hbad : checkFilter spec = .error e) :
    ∃ m, buildFilterOps l = .error (.invalidRequest m) := by
  induction l with
  | nil => cases hmem
  | cons f fs ih =>
      cases hc : checkFilter f with
      | error e1 =>
          obtain ⟨m, hm⟩ := checkFilter_error_invalid f e1 hc
          exact ⟨m, by simp [buildFilterOps, hc, bindError, hm]⟩
      | ok op =>
          rcases List.mem_cons.mp hmem with heq | htail
          · rw [heq] at hbad; rw [hbad] at hc; cases hc
          · obtain ⟨m, hm⟩ := ih htail
            exact ⟨m, by simp [buildFilterOps, hc, bindOk, hm, bindError]⟩

theorem execute_req_build_error (df : DataFrame)
    (dec : VisualizationDecision) (fs : Option (List FilterSpec))
    (lim : Option Nat) (e : Err)
    (h : buildFilterOps (fs.getD []) = .error e) :
    execute df dec fs lim = .error e := by
  simp [execute, h, bindError]

theorem execute_transform_build_error (df : DataFrame)
    (dec : VisualizationDecision) (fs : Option (List FilterSpec))
    (lim : Option Nat) (p : List PlanOp) (e : Err)
    (h1 : buildFilterOps (fs.getD []) = .ok p)
    (h2 : buildTransformOps dec.transform = .error e) :
    execute df dec fs lim = .error e := by
  simp [execute, h1, h2, bindOk, bindError]

theorem buildTransformOps_filter_error (tr : Transform)
    (e : Err) (h : buildFilterOps (tr.filter.getD []) = .error e) :
    buildTransformOps (some tr) = .error e := by
  simp [buildTransformOps, h, bindError]

theorem buildTransformOps_derive_error (tr : Transform) (p : List PlanOp)
    (d : DeriveSpec) (ds : List DeriveSpec)
    (h1 : buildFilterOps (tr.filter.getD []) = .ok p)
    (h2 : tr.derive = some (d :: ds)) :
    buildTransformOps (some tr) =
      .error (.invalidRequest "derive transform not implemented in v1") := by
  simp [buildTransformOps, h1, h2, bindOk]

theorem execute_filters_mem_invalid (df : DataFrame)
    (dec : VisualizationDecision) (l1 l2 : List FilterSpec)
    (spec : FilterSpec) (lim : Option Nat) (e : Err)
    (hbad : checkFilter spec = .error e) :
    ∃ m, execute df dec (some (l1 ++ spec :: l2)) lim =
      .error (.invalidRequest m) := by
  obtain ⟨m, hm⟩ := buildFilterOps_mem_error (l1 ++ spec :: l2) spec e
    (by simp) hbad
  exact ⟨m, execute_req_build_error df dec _ lim _ (by simpa using hm)⟩

theorem execute_transform_filters_mem_invalid (df : DataFrame)
    (dec : VisualizationDecision) (fs : Option (List FilterSpec))
    (lim : Option Nat) (tr : Transform) (l1 l2 : List FilterSpec)
    (spec : FilterSpec) (e : Err)
    (htr : dec.transform = some tr)
    (hfl : tr.filter = some (l1 ++ spec :: l2))
    (hbad : checkFilter spec = .error e) :
    ∃ m, execute df dec fs lim = .error (.invalidRequest m) := by
  cases hreq : buildFilterOps (fs.getD []) with
  | error e1 =>
      obtain ⟨m, hm⟩ := buildFilterOps_error_invalid _ e1 hreq
      exact ⟨m, by rw [← hm]; exact execute_req_build_error df dec fs lim e1 hreq⟩
  | ok p =>
      obtain ⟨m, hm⟩ := buildFilterOps_mem_error (l1 ++ spec :: l2) spec e
        (by simp) hbad
      refine ⟨m, execute_transform_build_error df dec fs lim p _ hreq ?_⟩
      rw [htr]
      exact buildTransformOps_filter_error tr _ (by simp [hfl]; exact hm)

theorem runPlan_single (df : DataFrame) (op : PlanOp) :
    runPlan df [op] = runOp df op := by
  cases h : runOp df op with
  | ok d => simp [runPlan, h, bindOk]
  | error e => simp [runPlan, h, bindError]

theorem runPlan_full_decompose (df : DataFrame) (rf tf : List FilterSpec)
    (tus : List TimeUnitSpec) (bins : List BinSpec)
    (aggs : List AggregateSpec) (lim : Option Nat) :
    runPlan df ((rf.map PlanOp.filterStep) ++
        ((tf.map PlanOp.filterStep) ++ buildTimeUnitOps tus ++
          buildBinOps bins ++ (aggs.map PlanOp.aggregateStep)) ++
        limitOpsOf lim) =
      specFixedOrder df rf tf tus bins aggs lim := by
  simp only [runPlan_append, runPlan_filterSteps, runPlan_timeUnitSteps,
    runPlan_binSteps, runPlan_aggSteps, runPlan_limitOps, specFixedOrder]
  cases h1 : runFilterList df rf with
  | error e => rfl
  | ok d1 =>
    cases h2 : runFilterList d1 tf with
    | error e => simp [h2]
    | ok d2 =>
      cases h3 : runTimeUnitList d2 tus with
      | error e => simp [h2, h3]
      | ok d3 =>
        cases h4 : runBinList d3 bins with
        | error e => simp [h2, h3, h4]
        | ok d4 =>
          cases h5 : runAggList d4 aggs with
          | error e => simp [h2, h3, h4, h5]
          | ok d5 => simp [h2, h3, h4, h5]

/-- Demonstration dataset for the clause-order claim. -/
def orderDemoFrame : DataFrame :=
  [[("cat", Value.str "a"), ("x", Value.num 1)],
   [("cat", Value.str "a"), ("x", Value.num 5)],
   [("cat", Value.str "b"), ("x", Value.num 2)]]

/-- Filter clause referencing the pre-aggregation column x. -/
def orderDemoFilter : FilterSpec :=
  { field := "x", op := .lte, value := some (.num 2) }

/-- Aggregate clause that groups by cat and removes column x. -/
def orderDemoAggregate : AggregateSpec :=
  { groupby := ["cat"], measures := [{ field := "x", op := .count, as_ := some "x_count" }] }

/-- Transform filtering on x and then aggregating x away. -/
def orderDemoTransform : Transform :=
  { filter := some [orderDemoFilter], aggregate := some [orderDemoAggregate] }

/-- Decision carrying the demonstration transform. -/
def orderDemoDecision : VisualizationDecision :=
  { chart := { type := .bar, score := 9 / 10 },
    fields := [],
    transform := some orderDemoTransform,
    encoding := {},
    justification := "demo" }

/-- Rows the demonstration decision produces: the filter saw the
pre-aggregation x values, so group a counts only its surviving row (the
x value 5 was dropped before aggregation). -/
def orderDemoAggregated : DataFrame :=
  [[("cat", Value.str "a"), ("x_count", Value.num ((1 : Nat) : ℚ))],
   [("cat", Value.str "b"), ("x_count", Value.num ((1 : Nat) : ℚ))]]

/-- C1: execute applies clauses in the fixed order — request-level filters,
the transform's filter clauses, time-unit bucketing, binning, aggregation,
limit_rows truncation last — for every dataframe and every well-formed
combination of the four clause kinds (the Transform record stores each
clause kind in its own field, so payload declaration order cannot
influence execution); and on a concrete dataset a filter referencing a
column the aggregation removes is evaluated on the pre-aggregation rows,
while evaluating it after aggregation would fail because the column is
gone. -/
theorem execute_fixed_clause_order :
    (∀ (df : DataFrame) (dec : VisualizationDecision) (tr : Transform)
        (reqFilters : List FilterSpec) (lim : Option Nat)
        (p1 p2 p3 : List PlanOp),
        dec.transform = some tr →
        tr.derive.getD [] = [] →
        buildFilterOps reqFilters = .ok p1 →
        buildFilterOps (tr.filter.getD []) = .ok p2 →
        buildAggOps (tr.aggregate.getD []) = .ok p3 →
        execute df dec (some reqFilters) lim =
          match specFixedOrder df reqFilters (tr.filter.getD [])
              (tr.time_unit.getD []) (tr.bin.getD [])
              (tr.aggregate.getD []) lim with
          | .ok out => .ok (out, ⟨out.length, reqFilters.length⟩)
          | .error e => .error e)
    ∧ execute orderDemoFrame orderDemoDecision none none =
        .ok (orderDemoAggregated, ⟨2, 0⟩)
    ∧ evalFilter orderDemoAggregated orderDemoFilter =
        .error (.columnNotFound "x") := by
  refine ⟨?_, by rfl, by rfl⟩
  intro df dec tr reqFilters lim p1 p2 p3 htr hder h1 h2 h3
  have e1 := buildFilterOps_ok_eq _ _ h1
  have e2 := buildFilterOps_ok_eq _ _ h2
  have e3 := buildAggOps_ok_eq _ _ h3
  subst e1; subst e2; subst e3
  have hbt : buildTransformOps dec.transform =
      .ok ((tr.filter.getD []).map PlanOp.filterStep ++
        buildTimeUnitOps (tr.time_unit.getD []) ++
        buildBinOps (tr.bin.getD []) ++
        (tr.aggregate.getD []).map PlanOp.aggregateStep) := by
    rw [htr]
    simp [buildTransformOps, h2, bindOk, hder, h3]
  simp only [execute, Option.getD_some, h1, hbt, bindOk,
    runPlan_full_decompose]
  cases specFixedOrder df reqFilters (tr.filter.getD [])
      (tr.time_unit.getD []) (tr.bin.getD [])
      (tr.aggregate.getD []) lim with
  | error e => rfl
  | ok out => rfl

/-- Closed instance of the fixed clause-order theorem at the
demonstration decision (hypotheses discharged by computation). -/
theorem execute_fixed_clause_order_witness :
    execute orderDemoFrame orderDemoDecision (some []) none =
      match specFixedOrder orderDemoFrame [] [orderDemoFilter] [] []
          [orderDemoAggregate] none with
      | .ok out => .ok (out, ⟨out.length, 0⟩)
      | .error e => .error e :=
  execute_fixed_clause_order.1 orderDemoFrame orderDemoDecision
    orderDemoTransform [] none [] [PlanOp.filterStep orderDemoFilter]
    [PlanOp.aggregateStep orderDemoAggregate]
    rfl rfl rfl rfl rfl

/-- Reference model of one time-unit clause, written from the amended
claim: the alias is the bare field for auto and field:unit otherwise;
every unit is bucketed by casting to datetime and truncating — second by
1s, minute by 1m, hour by 1h, day by 1d, week by 1w, month by one month,
quarter by three months, year by 1y, and auto by the fallback duration of
one day (auto does not leave the column unbucketed). -/
def timeUnitAmendedModel (df : DataFrame) (s : TimeUnitSpec) :
    Except Err DataFrame :=
  let aliasName := if s.unit = TimeUnit.auto then s.field
    else s.field ++ ":" ++ timeUnitValue s.unit
  let dur := match s.unit with
    | .auto => "1d"
    | .second => "1s"
    | .minute => "1m"
    | .hour => "1h"
    | .day => "1d"
    | .week => "1w"
    | .month => "1mo"
    | .quarter => "3mo"
    | .year => "1y"
  mapRowsM df (fun r => do
    let v ← requireCol r s.field
    let c ← castDatetime v
    let t : Value := match c with
      | .dt d => .dt (dtTruncate dur d)
      | other => other
    pure (setCol r aliasName t))

/-- C2 (amended): the alias rule is as claimed (bare field name for auto,
field:unit otherwise) and every non-auto unit truncates to the claimed
duration; but auto does not leave the column unbucketed — the executor
runs every time-unit clause, including auto, through the cast-and-truncate
pipeline, with auto receiving the fallback duration of one day. -/
theorem time_unit_clause_amended :
    (∀ s : TimeUnitSpec, s.unit = .auto → timeUnitAlias s = s.field)
    ∧ (∀ s : TimeUnitSpec, s.unit ≠ .auto →
        timeUnitAlias s = s.field ++ ":" ++ timeUnitValue s.unit)
    ∧ (∀ (df : DataFrame) (s : TimeUnitSpec),
        runPlan df (buildTimeUnitOps [s]) = timeUnitAmendedModel df s)
    ∧ timeUnitToPlDuration .second = "1s"
    ∧ timeUnitToPlDuration .minute = "1m"
    ∧ timeUnitToPlDuration .hour = "1h"
    ∧ timeUnitToPlDuration .day = "1d"
    ∧ timeUnitToPlDuration .week = "1w"
    ∧ timeUnitToPlDuration .month = "1mo"
    ∧ timeUnitToPlDuration .quarter = "3mo"
    ∧ timeUnitToPlDuration .year = "1y"
    ∧ timeUnitToPlDuration .auto = "1d" := by
  refine ⟨?_, ?_, ?_, rfl, rfl, rfl, rfl, rfl, rfl, rfl, rfl, rfl⟩
  · intro s h
    simp [timeUnitAlias, h]
  · intro s h
    simp [timeUnitAlias, h]
  · intro df s
    rw [show buildTimeUnitOps [s] =
      [PlanOp.timeUnitStep s.field (timeUnitAlias s)
        (timeUnitToPlDuration s.unit)] from rfl, runPlan_single]
    obtain ⟨f, u⟩ := s
    cases u <;> rfl

/-- Closed instance of the amended time-unit theorem: both alias-rule
hypotheses discharged at concrete clauses. -/
theorem time_unit_clause_amended_witness :
    timeUnitAlias ⟨"t", TimeUnit.auto⟩ = "t" ∧
    timeUnitAlias ⟨"t", TimeUnit.month⟩ = "t" ++ ":" ++ timeUnitValue .month :=
  ⟨time_unit_clause_amended.1 ⟨"t", TimeUnit.auto⟩ rfl,
   time_unit_clause_amended.2.1 ⟨"t", TimeUnit.month⟩ (by decide)⟩

/-- C2 counterexample: an auto time-unit clause does not leave the
column's values unbucketed — a timestamp with a time-of-day component is
truncated to midnight (the fallback one-day duration) under the original
field name. -/
theorem time_unit_auto_counterexample :
    runPlan [[("t", Value.dt ⟨2024, 1, 15, 10, 30, 0⟩)]]
        (buildTimeUnitOps [⟨"t", TimeUnit.auto⟩]) =
      .ok [[("t", Value.dt ⟨2024, 1, 15, 0, 0, 0⟩)]]
    ∧ Value.dt ⟨2024, 1, 15, 0, 0, 0⟩ ≠ Value.dt ⟨2024, 1, 15, 10, 30, 0⟩ := by
  exact ⟨by rfl, by decide⟩

/-- Predicate: every row of the dataframe holds a numeric value in the
named column. -/
def numColumn (df : DataFrame) (field : String) : Prop :=
  ∀ r ∈ df, ∃ q : ℚ, getCol r field = some (.num q)

/-- Between filter clause over two numeric bounds in the order given. -/
def numBetweenFilter (f : String) (a b : ℚ) : FilterSpec :=
  ⟨f, .between, none, some [.num a, .num b]⟩

/-- Rows of a dataframe whose numeric value in the column lies between a
and b inclusive (the reference set for the amended between claim). -/
def betweenKept (df : DataFrame) (field : String) (a b : ℚ) : DataFrame :=
  df.filter (fun r =>
    match getCol r field with
    | some (.num q) => decide (a ≤ q ∧ q ≤ b)
    | _ => false)

theorem evalFilter_between_num (field : String) (a b : ℚ) :
    ∀ df : DataFrame, numColumn df field →
    evalFilter df (numBetweenFilter field a b) =
      .ok (betweenKept df field a b) := by
  intro df
  induction df with
  | nil => intro _; rfl
  | cons r rs ih =>
      intro h
      obtain ⟨q, hq⟩ := h r (by simp)
      have hrs : numColumn rs field := fun r2 hr2 => h r2 (by simp [hr2])
      have ihr := ih hrs
      simp only [evalFilter] at ihr ⊢
      simp [filterRowsM, requireCol, numBetweenFilter, betweenKept,
        filterTest, testLe, List.filter_cons, Bool.decide_and] at ihr
      simp [filterRowsM, requireCol, numBetweenFilter, betweenKept, hq,
        filterTest, testLe, bindOk, ihr, List.filter_cons, Bool.decide_and]

/-- C3 (amended): a between filter with exactly two numeric values keeps
exactly the rows whose value v satisfies values[0] ≤ v ≤ values[1],
inclusive on both ends — the bounds are order-sensitive (polars
is_between takes them as lower then upper), so descending bounds match
nothing rather than being reordered. -/
theorem between_filter_order_sensitive :
    (∀ (df : DataFrame) (field : String) (a b : ℚ),
        numColumn df field →
        evalFilter df (numBetweenFilter field a b) =
          .ok (betweenKept df field a b))
    ∧ (∀ (df : DataFrame) (dec : VisualizationDecision) (field : String)
        (a b : ℚ), dec.transform = none → numColumn df field →
        execute df dec (some [numBetweenFilter field a b]) none =
          .ok (betweenKept df field a b,
            ⟨(betweenKept df field a b).length, 1⟩))
    ∧ (∀ (df : DataFrame) (field : String) (a b : ℚ),
        numColumn df field → b < a →
        evalFilter df (numBetweenFilter field a b) = .ok []) := by
  refine ⟨fun df field a b h => evalFilter_between_num field a b df h,
    ?_, ?_⟩
  · intro df dec field a b hdec h
    have key := evalFilter_between_num field a b df h
    simp only [execute, hdec, Option.getD_some, buildTransformOps]
    have hbf : buildFilterOps [numBetweenFilter field a b] =
        .ok [.filterStep (numBetweenFilter field a b)] := rfl
    simp only [hbf, bindOk, List.append_nil, limitOpsOf, runPlan_single,
      runOp, key]
    rfl
  · intro df field a b h hba
    rw [evalFilter_between_num field a b df h]
    have : betweenKept df field a b = [] := by
      apply List.filter_eq_nil_iff.mpr
      intro r hr
      obtain ⟨q, hq⟩ := h r hr
      simp [betweenKept, hq]
      intro h1
      exact lt_of_lt_of_le hba h1
    rw [this]

/-- C3 counterexample: with descending bounds [5, 1] the value 3 lies
between 1 and 5 inclusive, yet the executor drops the row — the bounds
are not order-agnostic. -/
theorem between_descending_counterexample :
    evalFilter [[("x", Value.num 3)]] (numBetweenFilter "x" 5 1) = .ok []
    ∧ (1 : ℚ) ≤ 3 ∧ (3 : ℚ) ≤ 5 := by
  exact ⟨by rfl, by decide, by decide⟩

/-- Closed instance of the amended between theorem at a concrete frame
with ascending bounds. -/
theorem between_filter_order_sensitive_witness :
    evalFilter [[("x", Value.num 3)]] (numBetweenFilter "x" 1 5) =
      .ok (betweenKept [[("x", Value.num 3)]] "x" 1 5) :=
  between_filter_order_sensitive.1 [[("x", Value.num 3)]] "x" 1 5
    (fun r hr => by
      simp at hr
      exact ⟨3, by rw [hr]; rfl⟩)

/-- C4: a between filter whose values list is absent, or present with a
length other than two, is rejected while the query is built — the clause
check raises the InvalidRequestError message verbatim, and execute always
fails with an InvalidRequestError whether the clause sits in the
request-level filters or in the transform's filter clauses; no prefix of
the values is ever taken and no partial filter is applied. -/
theorem between_arity_always_rejected :
    ∀ spec : FilterSpec, spec.op = .between →
    (spec.values = none ∨ ∃ vs, spec.values = some vs ∧ vs.length ≠ 2) →
    checkFilter spec =
      .error (.invalidRequest "between filter expects two values")
    ∧ (∀ (df : DataFrame) (dec : VisualizationDecision)
        (l1 l2 : List FilterSpec) (lim : Option Nat),
        ∃ m, execute df dec (some (l1 ++ spec :: l2)) lim =
          .error (.invalidRequest m))
    ∧ (∀ (df : DataFrame) (dec : VisualizationDecision)
        (fs : Option (List FilterSpec)) (lim : Option Nat) (tr : Transform)
        (l1 l2 : List FilterSpec),
        dec.transform = some tr → tr.filter = some (l1 ++ spec :: l2) →
        ∃ m, execute df dec fs lim = .error (.invalidRequest m)) := by
  intro spec hop hbad
  have hcf : checkFilter spec =
      .error (.invalidRequest "between filter expects two values") := by
    rcases hbad with hnone | ⟨vs, hvs, hlen⟩
    · simp [checkFilter, hop, hnone]
    · simp [checkFilter, hop, hvs, hlen]
  exact ⟨hcf,
    fun df dec l1 l2 lim =>
      execute_filters_mem_invalid df dec l1 l2 spec lim _ hcf,
    fun df dec fs lim tr l1 l2 htr hfl =>
      execute_transform_filters_mem_invalid df dec fs lim tr l1 l2 spec _
        htr hfl hcf⟩

/-- Closed instance of the between-arity theorem at a one-element values
list. -/
theorem between_arity_always_rejected_witness :
    checkFilter ⟨"x", .between, none, some [.num 1]⟩ =
      .error (.invalidRequest "between filter expects two values") :=
  (between_arity_always_rejected ⟨"x", .between, none, some [.num 1]⟩
    rfl (Or.inr ⟨[.num 1], rfl, by decide⟩)).1

/-- C9: a transform carrying a non-empty derive clause list makes execute
fail with an InvalidRequestError in every case — the derive clause is
rejected while the query is being built, before any rows are produced, so
it is neither silently ignored nor partially applied. -/
theorem derive_unconditionally_rejected :
    ∀ (df : DataFrame) (dec : VisualizationDecision)
      (fs : Option (List FilterSpec)) (lim : Option Nat)
      (tr : Transform) (d : DeriveSpec) (ds : List DeriveSpec),
      dec.transform = some tr → tr.derive = some (d :: ds) →
      ∃ m, execute df dec fs lim = .error (.invalidRequest m) := by
  intro df dec fs lim tr d ds htr hder
  cases hreq : buildFilterOps (fs.getD []) with
  | error e =>
      obtain ⟨m, hm⟩ := buildFilterOps_error_invalid _ e hreq
      exact ⟨m, by rw [← hm]; exact execute_req_build_error df dec fs lim e hreq⟩
  | ok p =>
      cases htf : buildFilterOps (tr.filter.getD []) with
      | error e2 =>
          obtain ⟨m, hm⟩ := buildFilterOps_error_invalid _ e2 htf
          refine ⟨m, ?_⟩
          rw [← hm]
          refine execute_transform_build_error df dec fs lim p e2 hreq ?_
          rw [htr]
          exact buildTransformOps_filter_error tr e2 htf
      | ok p2 =>
          refine ⟨"derive transform not implemented in v1", ?_⟩
          refine execute_transform_build_error df dec fs lim p _ hreq ?_
          rw [htr]
          exact buildTransformOps_derive_error tr p2 d ds htf hder

/-- Closed instance of the derive-rejection theorem at a minimal
decision. -/
theorem derive_unconditionally_rejected_witness :
    ∃ m, execute []
      { chart := { type := .bar, score := 1 }, fields := [],
        transform := some { derive := some [{ as_ := "y", expr := "x" }] },
        encoding := {}, justification := "" } none none =
      .error (.invalidRequest m) :=
  derive_unconditionally_rejected [] _ none none
    { derive := some [{ as_ := "y", expr := "x" }] }
    { as_ := "y", expr := "x" } [] rfl rfl

/-- C10: the regex operation, although declared in the FilterOp enum and
structurally accepted by decision validation, falls to the executor's
unsupported-operation branch: the clause check raises InvalidRequestError
naming the operation, and execute always fails with an InvalidRequestError
whether the regex filter arrives at request level or inside the
transform's filter clauses. -/
theorem regex_filter_rejected :
    ∀ spec : FilterSpec, spec.op = .regex →
    checkFilter spec =
      .error (.invalidRequest "Unsupported filter operation: regex")
    ∧ (∀ (df : DataFrame) (dec : VisualizationDecision)
        (l1 l2 : List FilterSpec) (lim : Option Nat),
        ∃ m, execute df dec (some (l1 ++ spec :: l2)) lim =
          .error (.invalidRequest m))
    ∧ (∀ (df : DataFrame) (dec : VisualizationDecision)
        (fs : Option (List FilterSpec)) (lim : Option Nat) (tr : Transform)
        (l1 l2 : List FilterSpec),
        dec.transform = some tr → tr.filter = some (l1 ++ spec :: l2) →
        ∃ m, execute df dec fs lim = .error (.invalidRequest m)) := by
  intro spec hop
  have hcf : checkFilter spec =
      .error (.invalidRequest "Unsupported filter operation: regex") := by
    simp [checkFilter, hop, filterOpValue]
  exact ⟨hcf,
    fun df dec l1 l2 lim =>
      execute_filters_mem_invalid df dec l1 l2 spec lim _ hcf,
    fun df dec fs lim tr l1 l2 htr hfl =>
      execute_transform_filters_mem_invalid df dec fs lim tr l1 l2 spec _
        htr hfl hcf⟩

/-- Closed instance of the regex-rejection theorem. -/
theorem regex_filter_rejected_witness :
    checkFilter ⟨"name", .regex, none, none⟩ =
      .error (.invalidRequest "Unsupported filter operation: regex") :=
  (regex_filter_rejected ⟨"name", .regex, none, none⟩ rfl).1

/-- C5: the fallback synthesizer is a pure function of the column type
signals (matched case-insensitively) and the failure reason, applying
first-match-wins rules — temporal with quantitative gives a line chart
over the first such fields with y summed; else nominal with quantitative
gives a bar chart; else two quantitative give a scatter; else exactly one
quantitative gives a histogram (binned x, count y); else it returns none
— and every produced decision carries chart score 0.3 and an assumptions
entry containing the literal reason string. -/
theorem fallback_synthesizer_rules :
    ∀ (cols : List FallbackColumn) (reason : String),
    (∀ d, fallbackDecision cols reason = some d →
        d.chart.score = 3 / 10
        ∧ ∃ entry, d.assumptions = some [fallbackHeuristicMsg, entry]
            ∧ entry = "Reason: " ++ reason
            ∧ ∃ pre post, entry = pre ++ reason ++ post)
    ∧ (∀ t0 ts q0 qs, colsOfType cols "temporal" = t0 :: ts →
        colsOfType cols "quantitative" = q0 :: qs →
        fallbackDecision cols reason =
          some (withReason (lineFallback t0.name q0.name) reason))
    ∧ (∀ n0 ns q0 qs, colsOfType cols "temporal" = [] →
        colsOfType cols "nominal" = n0 :: ns →
        colsOfType cols "quantitative" = q0 :: qs →
        fallbackDecision cols reason =
          some (withReason (barFallback n0.name q0.name) reason))
    ∧ (∀ x0 y0 qs, colsOfType cols "temporal" = [] →
        colsOfType cols "nominal" = [] →
        colsOfType cols "quantitative" = x0 :: y0 :: qs →
        fallbackDecision cols reason =
          some (withReason (scatterFallback x0.name y0.name) reason))
    ∧ (∀ q0, colsOfType cols "temporal" = [] →
        colsOfType cols "nominal" = [] →
        colsOfType cols "quantitative" = [q0] →
        fallbackDecision cols reason =
          some (withReason (histogramFallback q0.name) reason))
    ∧ (colsOfType cols "quantitative" = [] →
        fallbackDecision cols reason = none) := by
  intro cols reason
  refine ⟨?_, ?_, ?_, ?_, ?_, ?_⟩
  · intro d hd
    rcases hT : colsOfType cols "temporal" with _ | ⟨t0, ts⟩ <;>
      rcases hN : colsOfType cols "nominal" with _ | ⟨n0, ns⟩ <;>
        rcases hQ : colsOfType cols "quantitative" with _ | ⟨q0, _ | ⟨q1, qs2⟩⟩ <;>
          simp [fallbackDecision, hT, hN, hQ] at hd <;>
            (subst hd;
             exact ⟨rfl, "Reason: " ++ reason, rfl, rfl, "Reason: ", "",
               (String.append_empty _).symm⟩)
  · intro t0 ts q0 qs hT hQ
    simp [fallbackDecision, hT, hQ]
  · intro n0 ns q0 qs hT hN hQ
    simp [fallbackDecision, hT, hN, hQ]
  · intro x0 y0 qs hT hN hQ
    simp [fallbackDecision, hT, hN, hQ]
  · intro q0 hT hN hQ
    simp [fallbackDecision, hT, hN, hQ]
  · intro hQ
    rcases hT : colsOfType cols "temporal" with _ | ⟨t0, ts⟩ <;>
      rcases hN : colsOfType cols "nominal" with _ | ⟨n0, ns⟩ <;>
        simp [fallbackDecision, hT, hN, hQ]

/-- Closed instance of the fallback rules at a mixed-case temporal plus
quantitative column pair (also exercising case-insensitive matching). -/
theorem fallback_synthesizer_rules_witness :
    fallbackDecision [⟨"d", some "Temporal"⟩, ⟨"v", some "quantitative"⟩]
        "model failed" =
      some (withReason (lineFallback "d" "v") "model failed") :=
  (fallback_synthesizer_rules
      [⟨"d", some "Temporal"⟩, ⟨"v", some "quantitative"⟩] "model failed").2.1
    ⟨"d", some "Temporal"⟩ [] ⟨"v", some "quantitative"⟩ [] (by rfl) (by rfl)

/-- C6: compose's mark is _map_mark of the chart type's string value —
stacked_bar maps to a bar mark with normal stacking,
diverging_stacked_bar to a bar mark with normalize stacking, and every
other chart-type string passes through as its literal name; an unmapped
type is never an error (the mapping is a total function). -/
theorem compose_mark_mapping :
    (∀ (dec : VisualizationDecision) (rows : List Row),
        (compose dec rows).mark = mapMark (chartTypeValue dec.chart.type))
    ∧ mapMark "stacked_bar" = .barStack "bar" "normal"
    ∧ mapMark "diverging_stacked_bar" = .barStack "bar" "normalize"
    ∧ (∀ s : String, s ≠ "stacked_bar" → s ≠ "diverging_stacked_bar" →
        mapMark s = .plain s) := by
  refine ⟨fun dec rows => rfl, rfl, rfl, ?_⟩
  intro s h1 h2
  simp [mapMark, h1, h2]

/-- Closed instance of the mark-mapping theorem at an unmapped type. -/
theorem compose_mark_mapping_witness :
    mapMark "line" = .plain "line" :=
  compose_mark_mapping.2.2.2 "line" (by decide) (by decide)

/-- C7: compose is total on well-formed decisions (no failure path) and
its encoding carries a key for exactly the channels x, y, color, size,
shape that are present in the decision; an emitted channel omits every
sub-key whose source value is absent, a boolean bin true passes through
as-is, and a structured bin parameter is flattened to its record of
optional (non-null) fields. -/
theorem compose_encoding_channels :
    (∀ (dec : VisualizationDecision) (rows : List Row),
        ((compose dec rows).encoding.x.isSome ↔ dec.encoding.x.isSome)
        ∧ ((compose dec rows).encoding.y.isSome ↔ dec.encoding.y.isSome)
        ∧ ((compose dec rows).encoding.color.isSome ↔
            dec.encoding.color.isSome)
        ∧ ((compose dec rows).encoding.size.isSome ↔
            dec.encoding.size.isSome)
        ∧ ((compose dec rows).encoding.shape.isSome ↔
            dec.encoding.shape.isSome))
    ∧ (∀ ch : Channel, ch.field = none → (encodeChannel ch).field = none)
    ∧ (∀ ch : Channel, ch.type = none → (encodeChannel ch).type = none)
    ∧ (∀ ch : Channel, ch.aggregate = none →
        (encodeChannel ch).aggregate = none)
    ∧ (∀ ch : Channel, ch.time_unit = none →
        (encodeChannel ch).timeUnit = none)
    ∧ (∀ ch : Channel, ch.bin = none → (encodeChannel ch).bin = none)
    ∧ (∀ ch : Channel, ch.bin = some (.boolean true) →
        (encodeChannel ch).bin = some .asTrue)
    ∧ (∀ (ch : Channel) (p : BinParam), ch.bin = some (.param p) →
        (encodeChannel ch).bin = some (.flat p.strategy p.maxbins p.step)) := by
  refine ⟨?_, ?_, ?_, ?_, ?_, ?_, ?_, ?_⟩
  · intro dec rows
    refine ⟨?_, ?_, ?_, ?_, ?_⟩ <;>
      simp [compose, buildEncoding]
  · intro ch h; simp [encodeChannel, h]
  · intro ch h; simp [encodeChannel, h]
  · intro ch h; simp [encodeChannel, h]
  · intro ch h; simp [encodeChannel, h]
  · intro ch h; simp [encodeChannel, h]
  · intro ch h; simp [encodeChannel, h]
  · intro ch p h; simp [encodeChannel, h]

/-- Closed instance of the encoding theorem: a channel with no bin and no
aggregate emits neither sub-key. -/
theorem compose_encoding_channels_witness :
    (encodeChannel { field := some "f", type := some .nominal }).bin = none
    ∧ (encodeChannel { field := some "f" }).aggregate = none :=
  ⟨compose_encoding_channels.2.2.2.2.2.1
      { field := some "f", type := some .nominal } rfl,
   compose_encoding_channels.2.2.1 { field := some "f" } rfl⟩

/-- Reference model of one bin clause per the amended claim: a present
truthy step gives floor(value/step)*step binning; otherwise the
equal-width primitive receives the decision's maxbins whenever params is
present — even when maxbins itself is absent, in which case no bucket
count is forwarded — and the literal default 10 only when params is
wholly absent. -/
def binAmendedModel (df : DataFrame) (spec : BinSpec) :
    Except Err DataFrame :=
  match spec.params with
  | some p =>
      match p.step with
      | some st =>
          if st = 0 then evalBinCut df spec.field p.maxbins
          else evalBinStep df spec.field st
      | none => evalBinCut df spec.field p.maxbins
  | none => evalBinCut df spec.field (some 10)

theorem evalBinStep_num (field : String) (st : ℚ) :
    ∀ df : DataFrame, numColumn df field →
    evalBinStep df field st = .ok (df.map (fun r =>
      match getCol r field with
      | some (.num q) => setCol r field (.num ((⌊q / st⌋ : ℚ) * st))
      | _ => r)) := by
  intro df
  induction df with
  | nil => intro _; rfl
  | cons r rs ih =>
      intro h
      obtain ⟨q, hq⟩ := h r (by simp)
      have hrs : numColumn rs field := fun r2 hr2 => h r2 (by simp [hr2])
      have ihr := ih hrs
      simp only [evalBinStep] at ihr ⊢
      simp [mapRowsM, requireCol, bindOk, bindError] at ihr
      simp [mapRowsM, requireCol, hq, bindOk, bindError, ihr]

/-- C8 (amended): a bin clause with a truthy step replaces each numeric
value by floor(value/step)*step; otherwise the executor invokes the
count-based equal-width primitive with the decision's maxbins whenever
params is present (forwarding no bucket count at all when maxbins is
absent) and with the literal 10 only when params is wholly absent. -/
theorem bin_clause_amended :
    (∀ (df : DataFrame) (spec : BinSpec),
        runPlan df (buildBinOps [spec]) = binAmendedModel df spec)
    ∧ (∀ (df : DataFrame) (field : String) (st : ℚ),
        numColumn df field →
        evalBinStep df field st = .ok (df.map (fun r =>
          match getCol r field with
          | some (.num q) => setCol r field (.num ((⌊q / st⌋ : ℚ) * st))
          | _ => r)))
    ∧ (∀ spec : BinSpec, spec.params = none →
        buildBinOp spec = .binCut spec.field (some 10))
    ∧ (∀ (spec : BinSpec) (p : BinParam), spec.params = some p →
        p.step = none → buildBinOp spec = .binCut spec.field p.maxbins) := by
  refine ⟨?_, fun df field st h => evalBinStep_num field st df h, ?_, ?_⟩
  · intro df spec
    rw [show buildBinOps [spec] = [buildBinOp spec] from rfl, runPlan_single]
    rcases spec with ⟨f, _ | p⟩
    · rfl
    · rcases p with ⟨strat, mb, _ | st⟩
      · rfl
      · by_cases h : st = 0 <;>
          simp [buildBinOp, binAmendedModel, runOp, h]
  · intro spec h
    simp [buildBinOp, h]
  · intro spec p h1 h2
    simp [buildBinOp, h1, h2]

/-- Closed instance of the amended bin theorem: absent params defaults to
10, present params with absent maxbins forwards no count, and the step
formula applied at a concrete frame. -/
theorem bin_clause_amended_witness :
    buildBinOp ⟨"x", none⟩ = .binCut "x" (some 10)
    ∧ buildBinOp ⟨"x", some ⟨some "auto", none, none⟩⟩ = .binCut "x" none
    ∧ evalBinStep [[("x", Value.num 7)]] "x" 2 =
        .ok (List.map (fun r =>
          match getCol r "x" with
          | some (.num q) => setCol r "x" (.num ((⌊q / 2⌋ : ℚ) * 2))
          | _ => r) [[("x", Value.num 7)]]) :=
  ⟨bin_clause_amended.2.2.1 ⟨"x", none⟩ rfl,
   bin_clause_amended.2.2.2 ⟨"x", some ⟨some "auto", none, none⟩⟩
     ⟨some "auto", none, none⟩ rfl rfl,
   bin_clause_amended.2.1 [[("x", Value.num 7)]] "x" 2
     (fun r hr => by
       simp at hr
       exact ⟨7, by rw [hr]; rfl⟩)⟩

/-- C8 counterexample: with params present but maxbins absent the built
bin operation forwards no bucket count — not the claimed default of 10 —
and running it fails rather than splitting the range into ten buckets. -/
theorem bin_maxbins_counterexample :
    buildBinOps [⟨"x", some ⟨none, none, none⟩⟩] = [.binCut "x" none]
    ∧ PlanOp.binCut "x" none ≠ PlanOp.binCut "x" (some 10)
    ∧ runPlan [[("x", Value.num 0)]] [.binCut "x" none] =
        .error (.compute "equal-width binning requires a bucket count") := by
  exact ⟨rfl, by decide, rfl⟩

end Apex
